import Mathlib

set_option maxRecDepth 8000

namespace EarthquakeWebapp

/-- Semantics of JavaScript `Array.prototype.slice(s, e)` for a list: negative
arguments count from the end, then both indices are clamped to `[0, length]`
and the elements of the half-open range are returned. -/
def jsSlice {α : Type} (l : List α) (s e : ℤ) : List α :=
  (l.take (if e < 0 then max 0 ((l.length : ℤ) + e) else min e (l.length : ℤ)).toNat).drop
    (if s < 0 then max 0 ((l.length : ℤ) + s) else min s (l.length : ℤ)).toNat

namespace VirtualizedTableV2

/-- Constant `OVERSCAN = 5` of `VirtualizedTableV2` (src/unnamed/part_007, line 20).
The spec and the claims quantify over an arbitrary `overscan ≥ 0`, so the window
functions below take it as a parameter; the component instantiates it with this
constant. -/
def OVERSCAN : ℕ := 5

/-- Start index of the virtual window (src/unnamed/part_007, line 41):
`Math.max(0, Math.floor(scrollTop / itemHeight) - OVERSCAN)`. -/
def startIndex (scrollTop itemHeight : ℚ) (overscan : ℕ) : ℤ :=
  max 0 (⌊scrollTop / itemHeight⌋ - overscan)

/-- End index (inclusive) of the virtual window (src/unnamed/part_007, lines 42-45):
`Math.min(data.length - 1, Math.ceil((scrollTop + containerHeight) / itemHeight) + OVERSCAN)`. -/
def endIndex (n : ℕ) (scrollTop itemHeight containerHeight : ℚ) (overscan : ℕ) : ℤ :=
  min ((n : ℤ) - 1) (⌈(scrollTop + containerHeight) / itemHeight⌉ + overscan)

/-- Materialized rows (src/unnamed/part_007, lines 47-50):
`data.slice(startIndex, endIndex + 1)`. -/
def visibleData {α : Type} (data : List α)
    (scrollTop itemHeight containerHeight : ℚ) (overscan : ℕ) : List α :=
  jsSlice data (startIndex scrollTop itemHeight overscan)
    (endIndex data.length scrollTop itemHeight containerHeight overscan + 1)

/-- Rendering translation (src/unnamed/part_007, line 52): `offsetY = startIndex * itemHeight`. -/
def offsetY (scrollTop itemHeight : ℚ) (overscan : ℕ) : ℚ :=
  (startIndex scrollTop itemHeight overscan : ℚ) * itemHeight

/-- Total scrollable extent (src/unnamed/part_007, line 39):
`totalHeight = data.length * itemHeight`. -/
def totalHeight (n : ℕ) (itemHeight : ℚ) : ℚ := (n : ℚ) * itemHeight

/-- Events that can change the `scrollTop` state of `VirtualizedTableV2`.
The component's `scrollTop` React state is written in exactly two places:
`handleScroll` (line 67-70, sets the event's scroll position) and `handleSort`
(line 55-61, resets it to 0). No effect or handler reacts to a change of the
`data` prop or its length, so a data change leaves `scrollTop` untouched. -/
inductive V2Event where
  | scroll (top : ℚ)
  | sortClick
  | dataChanged

/-- Transition of the `scrollTop` state of `VirtualizedTableV2` under an event,
transcribed from `handleScroll`, `handleSort` and the absence of any handler for
data changes (src/unnamed/part_007, lines 34, 55-70). -/
def stepScrollTop : V2Event → ℚ → ℚ
  | .scroll top, _ => top
  | .sortClick, _ => 0
  | .dataChanged, s => s

/-- Modelled from the spec: the window formula of spec section 4.5
(`start = max(0, floor(scrollOffset / itemHeight) - overscan)`,
`end = min(n, ceil((scrollOffset + containerHeight) / itemHeight) + overscan)`,
visible range `[start, end)`), written from the spec's words for comparison
with the component's actual window. -/
def specVisibleRange (n : ℕ) (scrollOffset itemHeight containerHeight : ℚ)
    (overscan : ℕ) : ℤ × ℤ :=
  (max 0 (⌊scrollOffset / itemHeight⌋ - overscan),
   min (n : ℤ) (⌈(scrollOffset + containerHeight) / itemHeight⌉ + overscan))

end VirtualizedTableV2

/-- Raw CSV row shape, from `interface RawEarthquakeData` (src/unnamed/part_005,
lines 6-29): every field arrives as a string. -/
structure RawEarthquakeData where
  time : String
  latitude : String
  longitude : String
  depth : String
  mag : String
  magType : String
  nst : String
  gap : String
  dmin : String
  rms : String
  net : String
  id : String
  updated : String
  place : String
  type : String
  horizontalError : String
  depthError : String
  magError : String
  magNst : String
  status : String
  locationSource : String
  magSource : String
deriving DecidableEq

/-- Typed record, from `interface EarthquakeData` (src/unnamed/part_005, lines 31-53).
Numbers are modelled as rationals; the optional numeric fields are `Option`s so
that absence (`undefined`) is distinguishable from the value 0. The fields
produced by `parseInt` are integer-valued, hence `Option ℤ`. -/
structure EarthquakeData where
  id : String
  time : String
  latitude : ℚ
  longitude : ℚ
  depth : ℚ
  magnitude : ℚ
  magType : String
  place : String
  type : String
  net : String
  status : String
  updated : String
  nst : Option ℤ
  gap : Option ℚ
  dmin : Option ℚ
  rms : Option ℚ
  horizontalError : Option ℚ
  depthError : Option ℚ
  magError : Option ℚ
  magNst : Option ℤ
deriving DecidableEq

namespace VirtualizedTable

/-- Total page count of `VirtualizedTableComponent` (src/unnamed/part_006, line 47):
`Math.ceil(totalItems / pageSize)`, as a natural-number ceiling division
(meaningful for `pageSize > 0`). -/
def totalPages (totalItems pageSize : ℕ) : ℕ := (totalItems + pageSize - 1) / pageSize

/-- Page navigation (src/unnamed/part_006, lines 78-84): `handlePageChange(page)`
sets `currentPage := page` with no clamping and resets `scrollTop := 0`. -/
def handlePageChange (page : ℤ) : ℤ × ℚ := (page, 0)

/-- Guarded previous-page navigation (src/unnamed/part_006, lines 86-90). -/
def handlePreviousPage (currentPage : ℤ) : ℤ :=
  if 1 < currentPage then currentPage - 1 else currentPage

/-- Guarded next-page navigation (src/unnamed/part_006, lines 92-96). -/
def handleNextPage (currentPage tp : ℤ) : ℤ :=
  if currentPage < tp then currentPage + 1 else currentPage

/-- Selection reposition effect of `VirtualizedTableComponent`
(src/unnamed/part_006, lines 98-126): find the selected id's index in the sorted
data; if its page differs from the current page, navigate there and reset the
scroll position to 0; otherwise scroll so the row is centered,
`max(0, indexInPage*itemHeight - containerHeight/2 + itemHeight/2)`.
Returns the resulting `(currentPage, scrollTop)`. -/
def selectedScrollEffect (sortedData : List EarthquakeData) (selId : String)
    (pageSize currentPage : ℕ) (itemHeight containerHeight scrollTop : ℚ) : ℕ × ℚ :=
  match sortedData.findIdx? (fun eq => eq.id == selId) with
  | none => (currentPage, scrollTop)
  | some selectedIndex =>
      let targetPage := selectedIndex / pageSize + 1
      if targetPage ≠ currentPage then (targetPage, 0)
      else
        let indexInPage := selectedIndex % pageSize
        let targetScrollTop := (indexInPage : ℚ) * itemHeight
        (currentPage, max 0 (targetScrollTop - containerHeight / 2 + itemHeight / 2))

end VirtualizedTable

namespace StreamingHook

/-- Total page count exposed by `useStreamingEarthquakeData`
(src/src/hooks/useStreamingEarthquakeData.ts, line 209):
`Math.ceil(state.totalRows / pageSize)`. -/
def totalPages (totalRows pageSize : ℕ) : ℕ := (totalRows + pageSize - 1) / pageSize

/-- Resulting current page of `goToPage`
(src/src/hooks/useStreamingEarthquakeData.ts, lines 181-185): `loadPage(page)`
is invoked, which sets `currentPage := page`, only when the hook is not loading
and `page > 0`; there is no clamping against `totalPages`, and `page ≤ 0` is a
no-op that leaves the current page unchanged. -/
def goToPage (loading : Bool) (currentPage page : ℤ) : ℤ :=
  if loading = false ∧ 0 < page then page else currentPage

/-- State of the streaming hook relevant to cancellation
(src/src/hooks/useStreamingEarthquakeData.ts, lines 74-84): the collection data,
the error message, the index of the generation owning the live AbortController,
and the generations whose controller has been aborted. -/
structure HookState where
  data : List String
  error : Option String
  currentGen : ℕ
  aborted : List ℕ
deriving DecidableEq

/-- Start of `loadPage` (src/src/hooks/useStreamingEarthquakeData.ts, lines 89-94):
the previous AbortController is aborted and a fresh one is installed for the new
ingestion generation. -/
def loadPageStart (s : HookState) : HookState :=
  { s with currentGen := s.currentGen + 1, aborted := s.currentGen :: s.aborted }

/-- Resolution handler of generation `g`'s parse promise in `loadPage`
(src/src/hooks/useStreamingEarthquakeData.ts, lines 129-147). The
`streamingOptions` passed to `parseCsvStreamingFromUrl` contain only
`pageSize`, `page` and the three callbacks — the AbortController's signal is
never handed to the parser — and the resolution path calls `setState` with the
transformed data unconditionally. Consequently the handler ignores `g`: whether
or not generation `g` was aborted, its completion overwrites the state, exactly
as the code does. -/
def applyCompletion (s : HookState) (g : ℕ) (payload : List String) : HookState :=
  { s with data := payload, error := none }

/-- The hook's `onError` callback (src/src/hooks/useStreamingEarthquakeData.ts,
lines 120-126) likewise stores the error message into state without consulting
the generation `g` it came from. -/
def applyStreamError (s : HookState) (g : ℕ) (message : String) : HookState :=
  { s with error := some message }

end StreamingHook

namespace CsvParsing

/-- Required-field validation (src/src/services/csvParser.ts, lines 99-115, and
identically the row filter of `parseCsvData`, lines 67-74): the fields
`id, time, latitude, longitude, mag` must be truthy, i.e. non-empty strings. -/
def validateRawEarthquakeData (row : RawEarthquakeData) : Bool :=
  row.id != "" && row.time != "" && row.latitude != "" &&
    row.longitude != "" && row.mag != ""

/-- Constant `ERROR_MESSAGES.PARSING_ERROR` (src/src/utils/constants.ts, line 162). -/
def PARSING_ERROR : String :=
  "Failed to parse earthquake data. The data format may be invalid."

/-- Outcome of the streaming ingestion promise: `failed` models a rejected
promise (a thrown `CsvParsingError`), `ok` models the resolved value
`{ data, totalRows, hasMore }`. -/
inductive StreamOutcome where
  | failed (message : String)
  | ok (data : List RawEarthquakeData) (totalRows : ℕ) (hasMore : Bool)
deriving DecidableEq

/-- The `step` callback of `parseCsvStreamingFromUrl`
(src/src/services/csvParser.ts, lines 200-228), folded over the accumulator
`(allRows, rowCount)`: parse errors of a row are only logged; a row passing
validation increments `rowCount` and is collected when its 1-based count lies in
`(startIndex, endIndex]`; an invalid row is skipped. -/
def stepFold (startIndex endIndex : ℕ) (acc : List RawEarthquakeData × ℕ)
    (row : RawEarthquakeData) : List RawEarthquakeData × ℕ :=
  if validateRawEarthquakeData row then
    if startIndex < acc.2 + 1 ∧ acc.2 + 1 ≤ endIndex then (acc.1 ++ [row], acc.2 + 1)
    else (acc.1, acc.2 + 1)
  else acc

/-- Streaming ingestion (src/src/services/csvParser.ts, lines 186-256) over the
stream of row records the CSV layer delivers to `step`, with `networkError`
modelling the `error` callback (unreachable source / download failure).
`startIndex = (page-1)*pageSize`, `endIndex = page*pageSize`; the `complete`
callback resolves with the collected page, the count of valid rows, and
`hasMore = rowCount > endIndex`. Note the `complete` path resolves successfully
even when `rowCount = 0` (empty source or no valid rows). -/
def parseCsvStreamingFromUrl (stream : List RawEarthquakeData) (networkError : Bool)
    (pageSize page : ℕ) : StreamOutcome :=
  if networkError then .failed PARSING_ERROR
  else
    let startIndex := (page - 1) * pageSize
    let endIndex := page * pageSize
    let r := stream.foldl (stepFold startIndex endIndex) ([], 0)
    .ok r.1 r.2 (decide (endIndex < r.2))

end CsvParsing

namespace Transform

/-- JavaScript string defaulting `value || fallback` (falsy = empty string), as
used for the string fields in src/unnamed/part_014, lines 59-64. -/
def jsOrElse (value fallback : String) : String :=
  if value = "" then fallback else value

/-- Semantics of JavaScript `String.prototype.trim()`: strip whitespace from
both ends. -/
def jsTrim (s : String) : String :=
  ⟨((s.data.dropWhile Char.isWhitespace).reverse.dropWhile Char.isWhitespace).reverse⟩

/-- Optional float parsing (src/unnamed/part_014, lines 40-44): an empty or
whitespace-only string, or an unparsable one, yields absence; `pf` abstracts
JavaScript `parseFloat`, with `none` standing for `NaN`. -/
def parseOptionalFloat (pf : String → Option ℚ) (value : String) : Option ℚ :=
  if value = "" ∨ jsTrim value = "" then none else pf value

/-- Optional int parsing (src/unnamed/part_014, lines 46-50); `pi` abstracts
JavaScript `parseInt(·, 10)`. -/
def parseOptionalInt (pi : String → Option ℤ) (value : String) : Option ℤ :=
  if value = "" ∨ jsTrim value = "" then none else pi value

/-- Row transformation (src/unnamed/part_014, lines 25-80), parametrised by the
numeric parsers: reject when latitude, longitude or magnitude fails to parse or
when latitude/longitude is out of range; depth defaults to 0 when unparsable;
the optional numeric fields go through `parseOptionalFloat`/`parseOptionalInt`. -/
def transformEarthquakeData (pf : String → Option ℚ) (pi : String → Option ℤ)
    (raw : RawEarthquakeData) : Option EarthquakeData :=
  match pf raw.latitude, pf raw.longitude, pf raw.mag with
  | some latitude, some longitude, some magnitude =>
      if 90 < |latitude| ∨ 180 < |longitude| then none
      else some {
        id := raw.id
        time := raw.time
        latitude := latitude
        longitude := longitude
        depth := (pf raw.depth).getD 0
        magnitude := magnitude
        magType := jsOrElse raw.magType "unknown"
        place := jsOrElse raw.place "Unknown location"
        type := jsOrElse raw.type "earthquake"
        net := jsOrElse raw.net "unknown"
        status := jsOrElse raw.status "unknown"
        updated := jsOrElse raw.updated raw.time
        nst := parseOptionalInt pi raw.nst
        gap := parseOptionalFloat pf raw.gap
        dmin := parseOptionalFloat pf raw.dmin
        rms := parseOptionalFloat pf raw.rms
        horizontalError := parseOptionalFloat pf raw.horizontalError
        depthError := parseOptionalFloat pf raw.depthError
        magError := parseOptionalFloat pf raw.magError
        magNst := parseOptionalInt pi raw.magNst }
  | _, _, _ => none

/-- The per-row codec of the ingestion pipeline: the required-field filter of
`parseCsvData` (src/src/services/csvParser.ts, lines 66-83) composed with the
row transformation of src/unnamed/part_014; `none` models a rejected row. -/
def perRowCodec (pf : String → Option ℚ) (pi : String → Option ℤ)
    (raw : RawEarthquakeData) : Option EarthquakeData :=
  if CsvParsing.validateRawEarthquakeData raw then transformEarthquakeData pf pi raw
  else none

end Transform

namespace Dedup

/-- One insertion into the `Map<string, EarthquakeData[]>` grouping of
`findDuplicateRecords` (src/src/utils/constants.ts, lines 355-389): a JS `Map`
preserves first-insertion key order, and each group accumulates records in
arrival order. -/
def insertById (groups : List (String × List EarthquakeData)) (item : EarthquakeData) :
    List (String × List EarthquakeData) :=
  match groups with
  | [] => [(item.id, [item])]
  | (k, rs) :: t =>
      if k = item.id then (k, rs ++ [item]) :: t else (k, rs) :: insertById t item

/-- The id-grouping pass of `findDuplicateRecords` (src/src/utils/constants.ts,
lines 363-370). -/
def groupById (data : List EarthquakeData) : List (String × List EarthquakeData) :=
  data.foldl insertById []

/-- The `records.reduce` of `findDuplicateRecords` (src/src/utils/constants.ts,
lines 378-380): keep the record whose `updated` timestamp is latest; `dateVal`
abstracts `new Date(·).getTime()`. -/
def latestRecord (dateVal : String → ℤ) (head : EarthquakeData)
    (tail : List EarthquakeData) : EarthquakeData :=
  tail.foldl (fun latest current =>
    if dateVal latest.updated < dateVal current.updated then current else latest) head

/-- Per-group retention of `findDuplicateRecords` (src/src/utils/constants.ts,
lines 372-385): a group of more than one record keeps the reduce's latest
record, a singleton group keeps its only record (`records[0]`); groups are
never empty. -/
def pickGroup (dateVal : String → ℤ) : List EarthquakeData → List EarthquakeData
  | [] => []
  | h :: t => if 1 < (h :: t).length then [latestRecord dateVal h t] else [h]

/-- The `uniqueData` result of `findDuplicateRecords` (src/src/utils/constants.ts,
lines 355-389): one retained record per id group, in first-insertion key order. -/
def uniqueData (dateVal : String → ℤ) (data : List EarthquakeData) : List EarthquakeData :=
  (groupById data).flatMap (fun g => pickGroup dateVal g.2)

/-- Lookup helper for reasoning about the grouping: the group stored under key
`k`, or the empty list when no entry exists. -/
def groupFor (groups : List (String × List EarthquakeData)) (k : String) :
    List EarthquakeData :=
  ((groups.find? (fun p => p.1 == k)).map Prod.snd).getD []

end Dedup

namespace App

/-- The comparator of `AppContent`'s sorted-data memo (src/src/App.tsx,
lines 29-48): `key` models the access `a[sortField]` (absent optional field =
`none`), and the result is the comparator's return value in `{-1, 0, 1}` with
the code's `null` handling. -/
def compareRows {α β : Type} [LinearOrder β] (key : α → Option β)
    (ascending : Bool) (a b : α) : ℤ :=
  match key a, key b with
  | none, none => 0
  | none, some _ => if ascending then 1 else -1
  | some _, none => if ascending then -1 else 1
  | some x, some y =>
      if x < y then (if ascending then -1 else 1)
      else if y < x then (if ascending then 1 else -1)
      else 0

/-- The sort applied in the memo, `[...dataToSort].sort(comparator)`, modelled
as a stable sort by the comparator being non-positive. -/
def sortedData {α β : Type} [LinearOrder β] (key : α → Option β) (ascending : Bool)
    (l : List α) : List α :=
  l.mergeSort (fun a b => decide (compareRows key ascending a b ≤ 0))

/-- The displayed data of `AppContent` (src/src/App.tsx, lines 29-48):
`dataToSort = filteredData.length > 0 ? filteredData : rawData`, then sorted. -/
def displayData {α β : Type} [LinearOrder β] (key : α → Option β) (ascending : Bool)
    (filteredData rawData : List α) : List α :=
  sortedData key ascending (if 0 < filteredData.length then filteredData else rawData)

end App

/-- Record with a given id and all other fields defaulted, used as concrete
input for witness evaluations. -/
def sampleRec (s : String) : EarthquakeData :=
  { id := s, time := "", latitude := 0, longitude := 0, depth := 0, magnitude := 0,
    magType := "", place := "", type := "", net := "", status := "", updated := "",
    nst := none, gap := none, dmin := none, rms := none, horizontalError := none,
    depthError := none, magError := none, magNst := none }

/-- Concrete sorted collection of 101 records with ids "0" .. "100"; the record
with id "100" sits at index 100, on page 3 of a 50-items-per-page view. -/
def sampleData : List EarthquakeData :=
  (List.range 101).map (fun k => sampleRec (toString k))

/-- Raw row with every field empty: fails required-field validation. -/
def emptyRaw : RawEarthquakeData :=
  { time := "", latitude := "", longitude := "", depth := "", mag := "",
    magType := "", nst := "", gap := "", dmin := "", rms := "", net := "", id := "",
    updated := "", place := "", type := "", horizontalError := "", depthError := "",
    magError := "", magNst := "", status := "", locationSource := "", magSource := "" }

/-- Concrete float parser for witness evaluations. -/
def pfW : String → Option ℚ :=
  fun s => if s = "4" then some 4 else if s = "10" then some 10 else none

/-- Concrete int parser for witness evaluations. -/
def piW : String → Option ℤ := fun s => if s = "7" then some 7 else none

/-- Concrete raw row for the codec witness: required fields present, depth
unparsable, gap empty, dmin parsable, magNst parsable. -/
def rawW : RawEarthquakeData :=
  { time := "t", latitude := "10", longitude := "10", depth := "zzz", mag := "4",
    magType := "", nst := "", gap := "", dmin := "4", rms := "", net := "",
    id := "q1", updated := "", place := "", type := "", horizontalError := "",
    depthError := "", magError := "", magNst := "7", status := "",
    locationSource := "", magSource := "" }

/-- The record the codec produces from `rawW` with the parsers `pfW`/`piW`. -/
def recW : EarthquakeData :=
  { id := "q1", time := "t", latitude := 10, longitude := 10, depth := 0,
    magnitude := 4, magType := "unknown", place := "Unknown location",
    type := "earthquake", net := "unknown", status := "unknown", updated := "t",
    nst := none, gap := none, dmin := some 4, rms := none,
    horizontalError := none, depthError := none, magError := none,
    magNst := some 7 }

/-- Concrete timestamp valuation for the dedup witness: string length. -/
def dvW : String → ℤ := fun s => (s.length : ℤ)

/-- Duplicate pair for id "x": `recAW` updated "1", `recBW` updated "22"
(later under `dvW`). -/
def recAW : EarthquakeData := { sampleRec "x" with updated := "1" }

/-- Companion duplicate of `recAW` with the later `updated` timestamp. -/
def recBW : EarthquakeData := { sampleRec "x" with updated := "22" }

/-- Concrete collection with one duplicated id and one unique id. -/
def recsW : List EarthquakeData := [recAW, recBW, sampleRec "y"]

theorem jsSlice_sublist {α : Type} (l : List α) (s e : ℤ) :
    List.Sublist (jsSlice l s e) l :=
  (List.drop_sublist _ _).trans (List.take_sublist _ _)

/-- C1: the claim is false at its own Scenario B. With containerHeight 600,
itemHeight 60, overscan 2, scrollOffset 0 and n = 1000, the spec's window
formula gives the half-open range [0, 12), but `VirtualizedTableV2` slices
`data.slice(startIndex, endIndex + 1)` with the inclusive
`endIndex = min(n - 1, ceil((scrollOffset + containerHeight)/itemHeight) + overscan)`,
materializing the 13 rows [0, 13). -/
theorem c1_counterexample :
    VirtualizedTableV2.visibleData (List.range 1000) 0 60 600 2
      ≠ jsSlice (List.range 1000)
          (VirtualizedTableV2.specVisibleRange 1000 0 60 600 2).1
          (VirtualizedTableV2.specVisibleRange 1000 0 60 600 2).2 := by
  have hfl : ⌊(0:ℚ)/60⌋ = 0 := by simp
  have hcl : ⌈((0:ℚ) + 600)/60⌉ = 10 := by
    have h : ((0:ℚ) + 600)/60 = ((10:ℤ):ℚ) := by norm_num
    rw [h, Int.ceil_intCast]
  have hstart : VirtualizedTableV2.startIndex 0 60 2 = 0 := by
    rw [VirtualizedTableV2.startIndex, hfl]; decide
  have hend : VirtualizedTableV2.endIndex 1000 0 60 600 2 = 12 := by
    rw [VirtualizedTableV2.endIndex, hcl]; decide
  have h1 : VirtualizedTableV2.visibleData (List.range 1000) (0:ℚ) 60 600 2
      = List.range 13 := by
    rw [VirtualizedTableV2.visibleData, List.length_range, hstart, hend, jsSlice]
    norm_num [List.take_range]
    rfl
  have hspec : VirtualizedTableV2.specVisibleRange 1000 0 60 600 2 = (0, 12) := by
    rw [VirtualizedTableV2.specVisibleRange, hfl, hcl]; decide
  have h2 : jsSlice (List.range 1000)
      (VirtualizedTableV2.specVisibleRange 1000 0 60 600 2).1
      (VirtualizedTableV2.specVisibleRange 1000 0 60 600 2).2 = List.range 12 := by
    rw [hspec, jsSlice]
    norm_num [List.take_range]
    rfl
  rw [h1, h2]
  intro h
  have := congrArg List.length h
  simp at this

/-- C1 (amended): for every slice and every viewport state with itemHeight > 0,
overscan ≥ 0, containerHeight ≥ 0 and scrollOffset ≥ 0, the materialized window
of `VirtualizedTableV2` is exactly the half-open index range [start, end) with
start = max(0, floor(scrollOffset/itemHeight) - overscan) and
end = min(n, ceil((scrollOffset + containerHeight)/itemHeight) + overscan + 1) —
one item more than the spec's formula — the rendering offset equals
start * itemHeight, and the total scrollable extent equals n * itemHeight;
for Scenario B the visible range is [0, 13). -/
theorem c1_amended {α : Type} (data : List α) (so ih ch : ℚ) (ov : ℕ)
    (hih : 0 < ih) (hso : 0 ≤ so) (hch : 0 ≤ ch) :
    VirtualizedTableV2.visibleData data so ih ch ov
      = (data.take (min (data.length : ℤ) (⌈(so + ch) / ih⌉ + ov + 1)).toNat).drop
          (VirtualizedTableV2.startIndex so ih ov).toNat
    ∧ VirtualizedTableV2.offsetY so ih ov
        = (VirtualizedTableV2.startIndex so ih ov : ℚ) * ih
    ∧ VirtualizedTableV2.totalHeight data.length ih = (data.length : ℚ) * ih := by
  refine ⟨?_, rfl, rfl⟩
  have hs0 : 0 ≤ VirtualizedTableV2.startIndex so ih ov := le_max_left 0 _
  have hc0 : (0:ℤ) ≤ ⌈(so + ch) / ih⌉ := Int.ceil_nonneg (by positivity)
  have he0 : 0 ≤ VirtualizedTableV2.endIndex data.length so ih ch ov + 1 := by
    rw [VirtualizedTableV2.endIndex]
    set b := ⌈(so + ch) / ih⌉
    omega
  rw [VirtualizedTableV2.visibleData, jsSlice,
    if_neg (not_lt.2 he0), if_neg (not_lt.2 hs0)]
  have hE : (min (VirtualizedTableV2.endIndex data.length so ih ch ov + 1)
        ((data.length : ℤ))).toNat
      = (min (data.length : ℤ) (⌈(so + ch) / ih⌉ + ov + 1)).toNat := by
    rw [VirtualizedTableV2.endIndex]
    set b := ⌈(so + ch) / ih⌉
    omega
  rw [hE]
  rcases le_or_lt (VirtualizedTableV2.startIndex so ih ov) ((data.length : ℤ)) with hle | hgt
  · have hS : (min (VirtualizedTableV2.startIndex so ih ov) ((data.length : ℤ))).toNat
        = (VirtualizedTableV2.startIndex so ih ov).toNat := by omega
    rw [hS]
  · have hlen : (data.take (min ((data.length : ℤ))
        (⌈(so + ch) / ih⌉ + ov + 1)).toNat).length ≤ data.length := by
      simp [List.length_take]
    have hS : data.length ≤ (min (VirtualizedTableV2.startIndex so ih ov)
        ((data.length : ℤ))).toNat := by omega
    have hS' : data.length ≤ (VirtualizedTableV2.startIndex so ih ov).toNat := by omega
    rw [List.drop_eq_nil_of_le (le_trans hlen hS),
      List.drop_eq_nil_of_le (le_trans hlen hS')]

theorem c1_amended_witness :
    ((0:ℚ) < 60 ∧ (0:ℚ) ≤ 0 ∧ (0:ℚ) ≤ 600)
    ∧ (VirtualizedTableV2.visibleData (List.range 5) 0 60 600 2
        = ((List.range 5).take (min ((List.range 5).length : ℤ)
            (⌈((0:ℚ) + 600) / 60⌉ + (2:ℕ) + 1)).toNat).drop
            (VirtualizedTableV2.startIndex 0 60 2).toNat
       ∧ VirtualizedTableV2.offsetY 0 60 2
           = (VirtualizedTableV2.startIndex 0 60 2 : ℚ) * 60
       ∧ VirtualizedTableV2.totalHeight (List.range 5).length 60
           = ((List.range 5).length : ℚ) * 60) :=
  ⟨⟨by norm_num, le_refl 0, by norm_num⟩,
   c1_amended (List.range 5) 0 60 600 2 (by norm_num) (le_refl 0) (by norm_num)⟩

/-- C2: the claim is false as stated. When the scroll offset lies far beyond
n * itemHeight — which the claim explicitly includes — the computed start index
exceeds the window's exclusive end: with scrollOffset 600, itemHeight 60,
containerHeight 600, overscan 5 and n = 1, start = 5 while end = 1. -/
theorem c2_counterexample :
    ¬ (VirtualizedTableV2.startIndex 600 60 5
        ≤ VirtualizedTableV2.endIndex 1 600 60 600 5 + 1) := by
  have hfl : ⌊(600:ℚ)/60⌋ = 10 := by
    have h : (600:ℚ)/60 = ((10:ℤ):ℚ) := by norm_num
    rw [h, Int.floor_intCast]
  have hcl : ⌈((600:ℚ) + 600)/60⌉ = 20 := by
    have h : ((600:ℚ) + 600)/60 = ((20:ℤ):ℚ) := by norm_num
    rw [h, Int.ceil_intCast]
  rw [VirtualizedTableV2.startIndex, VirtualizedTableV2.endIndex, hfl, hcl]
  decide

/-- C2 (amended): for itemHeight > 0, containerHeight ≥ 0 and
0 ≤ scrollOffset ≤ n * itemHeight, the window indices of `VirtualizedTableV2`
satisfy 0 ≤ start ≤ end ≤ n (with end the exclusive end `endIndex + 1` of the
materialized slice), including when n = 0; the bound fails only when
scrollOffset lies beyond n * itemHeight. -/
theorem c2_amended (n : ℕ) (so ih ch : ℚ) (ov : ℕ)
    (hih : 0 < ih) (hso : 0 ≤ so) (hch : 0 ≤ ch) (hext : so ≤ (n : ℚ) * ih) :
    0 ≤ VirtualizedTableV2.startIndex so ih ov
    ∧ VirtualizedTableV2.startIndex so ih ov
        ≤ VirtualizedTableV2.endIndex n so ih ch ov + 1
    ∧ VirtualizedTableV2.endIndex n so ih ch ov + 1 ≤ n := by
  have h1 : (0:ℤ) ≤ ⌈(so + ch) / ih⌉ := Int.ceil_nonneg (by positivity)
  have h2 : ⌊so / ih⌋ ≤ ⌈(so + ch) / ih⌉ :=
    le_trans (Int.floor_le_floor ((div_le_div_right hih).2 (by linarith)))
      (Int.floor_le_ceil _)
  have h3 : ⌊so / ih⌋ ≤ (n:ℤ) := by
    rw [Int.floor_le_iff]
    have h4 : so / ih ≤ (n:ℚ) := (div_le_iff hih).2 (by linarith)
    push_cast
    linarith
  rw [VirtualizedTableV2.startIndex, VirtualizedTableV2.endIndex]
  set a := ⌊so / ih⌋
  set b := ⌈(so + ch) / ih⌉
  omega

theorem c2_amended_witness :
    ((0:ℚ) < 60 ∧ (0:ℚ) ≤ 0 ∧ (0:ℚ) ≤ 600 ∧ (0:ℚ) ≤ (1000 : ℕ) * 60)
    ∧ (0 ≤ VirtualizedTableV2.startIndex 0 60 2
       ∧ VirtualizedTableV2.startIndex 0 60 2
           ≤ VirtualizedTableV2.endIndex 1000 0 60 600 2 + 1
       ∧ VirtualizedTableV2.endIndex 1000 0 60 600 2 + 1 ≤ 1000) :=
  ⟨⟨by norm_num, le_refl 0, by norm_num, by norm_num⟩,
   c2_amended 1000 0 60 600 2 (by norm_num) (le_refl 0) (by norm_num) (by norm_num)⟩

/-- C8: the claim is false — `VirtualizedTableV2` has no code reacting to a
change of the data length, so a shrink of n leaves scrollTop untouched rather
than clamping it to max(0, n*itemHeight - containerHeight): with stale
scrollTop 6000 and the slice shrunk to n = 1 (itemHeight 60, containerHeight
600), scrollTop stays 6000 while the claimed clamp value is 0. -/
theorem c8_counterexample :
    VirtualizedTableV2.stepScrollTop VirtualizedTableV2.V2Event.dataChanged 6000 = 6000
    ∧ (6000:ℚ) ≠ max 0 ((1:ℚ) * 60 - 600) := by
  refine ⟨rfl, ?_⟩
  have h : max (0:ℚ) ((1:ℚ) * 60 - 600) = 0 := max_eq_left (by norm_num)
  rw [h]
  norm_num

/-- C8 (amended): a change of the data length leaves scrollTop unchanged — no
clamping happens. Out-of-bounds windows are prevented differently: the
materialized slice only ever contains elements of the collection, and whenever
n * itemHeight ≤ scrollOffset + containerHeight (in particular whenever the
stale scrollOffset exceeds the shrunken extent) the window's exclusive end
equals n. -/
theorem c8_amended {α : Type} (data : List α) (s so ih ch : ℚ) (ov : ℕ)
    (hih : 0 < ih) (hso : 0 ≤ so) (hch : 0 ≤ ch) :
    VirtualizedTableV2.stepScrollTop VirtualizedTableV2.V2Event.dataChanged s = s
    ∧ (∀ x ∈ VirtualizedTableV2.visibleData data so ih ch ov, x ∈ data)
    ∧ ((data.length : ℚ) * ih ≤ so + ch →
        VirtualizedTableV2.endIndex data.length so ih ch ov + 1 = data.length) := by
  refine ⟨rfl, ?_, ?_⟩
  · intro x hx
    exact (jsSlice_sublist data _ _).subset hx
  · intro hext
    have h1 : ((data.length : ℚ)) ≤ (so + ch) / ih := (le_div_iff hih).2 (by linarith)
    have h2 : ((data.length : ℤ)) ≤ ⌈(so + ch) / ih⌉ := by
      exact_mod_cast le_trans h1 (Int.le_ceil _)
    rw [VirtualizedTableV2.endIndex]
    set b := ⌈(so + ch) / ih⌉
    omega

theorem c8_amended_witness :
    ((0:ℚ) < 60 ∧ (0:ℚ) ≤ 0 ∧ (0:ℚ) ≤ 600)
    ∧ VirtualizedTableV2.stepScrollTop VirtualizedTableV2.V2Event.dataChanged 7 = 7
    ∧ VirtualizedTableV2.endIndex (List.range 3).length 0 60 600 5 + 1
        = (List.range 3).length := by
  have h := c8_amended (List.range 3) 7 0 60 600 5 (by norm_num) (le_refl 0) (by norm_num)
  exact ⟨⟨by norm_num, le_refl 0, by norm_num⟩, h.1, h.2.2 (by norm_num)⟩

/-- C3: when the record with id `selId` sits at sorted index `i` and the table
shows `pageSize` items per page on page `currentPage`, the selection effect of
`VirtualizedTableComponent` navigates to page `i / pageSize + 1` with scroll
offset 0 when that page differs from the current one, and otherwise centers the
row: `scrollTop = max(0, (i mod pageSize)*itemHeight - containerHeight/2 +
itemHeight/2)`. -/
theorem c3_selection (sortedData : List EarthquakeData) (selId : String)
    (pageSize currentPage : ℕ) (ih ch st : ℚ) (i : ℕ)
    (hfind : sortedData.findIdx? (fun eq => eq.id == selId) = some i) :
    (i / pageSize + 1 ≠ currentPage →
      VirtualizedTable.selectedScrollEffect sortedData selId pageSize currentPage ih ch st
        = (i / pageSize + 1, 0))
    ∧ (i / pageSize + 1 = currentPage →
      VirtualizedTable.selectedScrollEffect sortedData selId pageSize currentPage ih ch st
        = (currentPage, max 0 (((i % pageSize : ℕ) : ℚ) * ih - ch / 2 + ih / 2))) := by
  refine ⟨fun h => ?_, fun h => ?_⟩
  · simp only [VirtualizedTable.selectedScrollEffect, hfind, if_pos h]
  · simp only [VirtualizedTable.selectedScrollEffect, hfind]
    rw [if_neg (not_not_intro h)]

theorem c3_selection_witness :
    sampleData.findIdx? (fun eq => eq.id == "100") = some 100
    ∧ VirtualizedTable.selectedScrollEffect sampleData "100" 50 1 60 600 0 = (3, 0) := by
  have hf : sampleData.findIdx? (fun eq => eq.id == "100") = some 100 := by rfl
  exact ⟨hf, (c3_selection sampleData "100" 50 1 60 600 0 100 hf).1 (by decide)⟩

/-- C4: the claim is false — `goToPage` performs no clamping. With 10 total
rows and page size 5 (totalPages = 2), requesting page 3 while not loading
lands on page 3, not on 2; and requesting page 0 is a no-op that stays on the
current page instead of landing on page 1. -/
theorem c4_counterexample :
    StreamingHook.goToPage false 1 3 = 3
    ∧ StreamingHook.totalPages 10 5 = 2
    ∧ (3:ℤ) ≠ 2
    ∧ StreamingHook.goToPage false 2 0 = 2
    ∧ (2:ℤ) ≠ 1 := by decide

/-- C4 (amended): `goToPage(p)` loads exactly page `p` whenever the hook is not
loading and `p ≥ 1` — with no upper clamp, so `p > totalPages` is accepted
as-is — and is a no-op (current page unchanged) when loading or `p ≤ 0`;
`handlePageChange` likewise sets the requested page unclamped and resets the
scroll offset; only the previous/next handlers keep the active page inside
[1, totalPages]. -/
theorem c4_amended (loading : Bool) (cur p tp : ℤ) (h1 : 1 ≤ cur) (h2 : cur ≤ tp) :
    (loading = false → 1 ≤ p → StreamingHook.goToPage loading cur p = p)
    ∧ (loading = true ∨ p ≤ 0 → StreamingHook.goToPage loading cur p = cur)
    ∧ VirtualizedTable.handlePageChange p = (p, (0:ℚ))
    ∧ (1 ≤ VirtualizedTable.handlePreviousPage cur
       ∧ VirtualizedTable.handlePreviousPage cur ≤ tp)
    ∧ (1 ≤ VirtualizedTable.handleNextPage cur tp
       ∧ VirtualizedTable.handleNextPage cur tp ≤ tp) := by
  refine ⟨?_, ?_, rfl, ?_, ?_⟩
  · intro hl hp
    rw [StreamingHook.goToPage, if_pos ⟨hl, by omega⟩]
  · intro h
    rw [StreamingHook.goToPage, if_neg ?_]
    rintro ⟨hl, hp⟩
    rcases h with h | h
    · rw [h] at hl; exact absurd hl (by decide)
    · omega
  · rw [VirtualizedTable.handlePreviousPage]
    split <;> omega
  · rw [VirtualizedTable.handleNextPage]
    split <;> omega

theorem c4_amended_witness :
    ((1:ℤ) ≤ 1 ∧ (1:ℤ) ≤ 2)
    ∧ StreamingHook.goToPage false 1 3 = 3
    ∧ VirtualizedTable.handlePageChange 3 = (3, (0:ℚ))
    ∧ (1 ≤ VirtualizedTable.handlePreviousPage 1
       ∧ VirtualizedTable.handlePreviousPage 1 ≤ 2)
    ∧ (1 ≤ VirtualizedTable.handleNextPage 1 2
       ∧ VirtualizedTable.handleNextPage 1 2 ≤ 2) := by
  have h := c4_amended false 1 3 2 (le_refl 1) (by norm_num)
  exact ⟨⟨le_refl 1, by norm_num⟩, h.1 rfl (by norm_num), h.2.2.1, h.2.2.2.1, h.2.2.2.2⟩

/-- C9: the claim describes the intent but the code does not implement it.
`loadPage` aborts the previous generation's AbortController, yet the abort
signal is never passed to `parseCsvStreamingFromUrl`, and the completion and
error handlers update state without any generation check; so after starting
generation 2 (which aborts generation 1), a late completion of generation 1
still overwrites the collection data, and a late error of generation 1 still
lands in the error state — they are not dropped. -/
theorem c9_staleGenerationApplied :
    (StreamingHook.loadPageStart ⟨["fresh"], none, 1, []⟩).aborted = [1]
    ∧ (StreamingHook.applyCompletion
        (StreamingHook.loadPageStart ⟨["fresh"], none, 1, []⟩) 1 ["stale"]).data
        = ["stale"]
    ∧ (StreamingHook.applyStreamError
        (StreamingHook.loadPageStart ⟨["fresh"], none, 1, []⟩) 1 "boom").error
        = some "boom" :=
  ⟨rfl, rfl, rfl⟩

/-- C10: in `AppContent`, when the filtered data is empty, the displayed sorted
collection is computed from the raw (unfiltered) data — a permutation of the
full dataset — and when the filtered data is non-empty it is computed from the
filtered data. -/
theorem c10_displayData {α β : Type} [LinearOrder β] (key : α → Option β)
    (ascending : Bool) (filteredData rawData : List α) :
    (filteredData = [] →
      App.displayData key ascending filteredData rawData
          = App.sortedData key ascending rawData
      ∧ (App.displayData key ascending filteredData rawData).Perm rawData)
    ∧ (filteredData ≠ [] →
      App.displayData key ascending filteredData rawData
          = App.sortedData key ascending filteredData
      ∧ (App.displayData key ascending filteredData rawData).Perm filteredData) := by
  constructor
  · intro h
    subst h
    exact ⟨rfl, List.mergeSort_perm rawData _⟩
  · intro h
    have hlen : 0 < filteredData.length := List.length_pos.2 h
    constructor
    · rw [App.displayData, if_pos hlen]
    · rw [App.displayData, if_pos hlen]
      exact List.mergeSort_perm filteredData _

theorem c10_displayData_witness :
    App.displayData (fun n : ℕ => some (n:ℚ)) true [] [2, 1]
        = App.sortedData (fun n : ℕ => some (n:ℚ)) true [2, 1]
    ∧ (App.displayData (fun n : ℕ => some (n:ℚ)) true [] [2, 1]).Perm [2, 1] :=
  (c10_displayData (fun n : ℕ => some (n:ℚ)) true [] [2, 1]).1 rfl

theorem parseOptionalFloat_eq_none (pf : String → Option ℚ) (v : String) :
    Transform.parseOptionalFloat pf v = none ↔ (Transform.jsTrim v = "" ∨ pf v = none) := by
  rw [Transform.parseOptionalFloat]
  by_cases h : v = "" ∨ Transform.jsTrim v = ""
  · rw [if_pos h]
    have hr : Transform.jsTrim v = "" := by
      rcases h with h | h
      · subst h; decide
      · exact h
    simp [hr]
  · rw [if_neg h]
    push_neg at h
    simp [h.2]

theorem parseOptionalInt_eq_none (pi : String → Option ℤ) (v : String) :
    Transform.parseOptionalInt pi v = none ↔ (Transform.jsTrim v = "" ∨ pi v = none) := by
  rw [Transform.parseOptionalInt]
  by_cases h : v = "" ∨ Transform.jsTrim v = ""
  · rw [if_pos h]
    have hr : Transform.jsTrim v = "" := by
      rcases h with h | h
      · subst h; decide
      · exact h
    simp [hr]
  · rw [if_neg h]
    push_neg at h
    simp [h.2]

theorem validate_eq_false_iff (raw : RawEarthquakeData) :
    CsvParsing.validateRawEarthquakeData raw = false ↔
      (raw.id = "" ∨ raw.time = "" ∨ raw.latitude = "" ∨ raw.longitude = ""
        ∨ raw.mag = "") := by
  rw [CsvParsing.validateRawEarthquakeData]
  simp [Bool.and_eq_false_iff]
  tauto

/-- C5: the per-row codec is pure and total, and it rejects a row exactly when
a required field (id, time, latitude, longitude, mag) is missing, when
latitude/longitude/magnitude fails to parse, or when latitude/longitude is out
of range (|lat| > 90, |lon| > 180); on success an unparsable depth yields 0,
while every other optional numeric field that is empty or unparsable becomes
absent (`none`) rather than 0. -/
theorem c5_codec (pf : String → Option ℚ) (pi : String → Option ℤ)
    (raw : RawEarthquakeData) :
    (Transform.perRowCodec pf pi raw = none ↔
      ((raw.id = "" ∨ raw.time = "" ∨ raw.latitude = "" ∨ raw.longitude = ""
          ∨ raw.mag = "")
        ∨ (pf raw.latitude).elim True (fun la => 90 < |la|)
        ∨ (pf raw.longitude).elim True (fun lo => 180 < |lo|)
        ∨ pf raw.mag = none))
    ∧ (∀ rec, Transform.perRowCodec pf pi raw = some rec →
        rec.depth = (pf raw.depth).getD 0
        ∧ (rec.gap = none ↔ (Transform.jsTrim raw.gap = "" ∨ pf raw.gap = none))
        ∧ (rec.dmin = none ↔ (Transform.jsTrim raw.dmin = "" ∨ pf raw.dmin = none))
        ∧ (rec.rms = none ↔ (Transform.jsTrim raw.rms = "" ∨ pf raw.rms = none))
        ∧ (rec.horizontalError = none ↔
            (Transform.jsTrim raw.horizontalError = "" ∨ pf raw.horizontalError = none))
        ∧ (rec.depthError = none ↔
            (Transform.jsTrim raw.depthError = "" ∨ pf raw.depthError = none))
        ∧ (rec.magError = none ↔
            (Transform.jsTrim raw.magError = "" ∨ pf raw.magError = none))
        ∧ (rec.nst = none ↔ (Transform.jsTrim raw.nst = "" ∨ pi raw.nst = none))
        ∧ (rec.magNst = none ↔
            (Transform.jsTrim raw.magNst = "" ∨ pi raw.magNst = none))) := by
  by_cases hv : CsvParsing.validateRawEarthquakeData raw
  · have hreq : ¬(raw.id = "" ∨ raw.time = "" ∨ raw.latitude = "" ∨ raw.longitude = ""
        ∨ raw.mag = "") := by
      rw [← validate_eq_false_iff]
      simp [hv]
    constructor
    · rw [Transform.perRowCodec, if_pos hv, Transform.transformEarthquakeData]
      rcases hla : pf raw.latitude with _ | la <;>
          rcases hlo : pf raw.longitude with _ | lo <;>
          rcases hmg : pf raw.mag with _ | mg <;> simp [hreq]
      constructor
      · intro himp
        by_cases h90 : (90:ℚ) < |la|
        · exact Or.inl h90
        · exact Or.inr (himp (not_lt.1 h90))
      · rintro (h | h) hle
        · exact absurd h (not_lt.2 hle)
        · exact h
    · intro rec hrec
      rw [Transform.perRowCodec, if_pos hv, Transform.transformEarthquakeData] at hrec
      rcases hla : pf raw.latitude with _ | la <;> rw [hla] at hrec
      · simp at hrec
      rcases hlo : pf raw.longitude with _ | lo <;> rw [hlo] at hrec
      · simp at hrec
      rcases hmg : pf raw.mag with _ | mg <;> rw [hmg] at hrec
      · simp at hrec
      dsimp only at hrec
      split_ifs at hrec with h
      rw [Option.some_inj] at hrec
      subst hrec
      exact ⟨rfl, parseOptionalFloat_eq_none pf raw.gap,
        parseOptionalFloat_eq_none pf raw.dmin,
        parseOptionalFloat_eq_none pf raw.rms,
        parseOptionalFloat_eq_none pf raw.horizontalError,
        parseOptionalFloat_eq_none pf raw.depthError,
        parseOptionalFloat_eq_none pf raw.magError,
        parseOptionalInt_eq_none pi raw.nst,
        parseOptionalInt_eq_none pi raw.magNst⟩
  · have hreq : raw.id = "" ∨ raw.time = "" ∨ raw.latitude = "" ∨ raw.longitude = ""
        ∨ raw.mag = "" := by
      rw [← validate_eq_false_iff]
      simpa using hv
    constructor
    · rw [Transform.perRowCodec, if_neg hv]
      simp [hreq]
    · intro rec hrec
      rw [Transform.perRowCodec, if_neg hv] at hrec
      exact absurd hrec (by simp)

theorem foldl_stepFold (s e : ℕ) (l : List RawEarthquakeData) :
    ∀ (acc : List RawEarthquakeData) (c : ℕ),
      l.foldl (CsvParsing.stepFold s e) (acc, c)
        = (acc ++ (((l.filter CsvParsing.validateRawEarthquakeData).take (e - c)).drop (s - c)),
           c + (l.filter CsvParsing.validateRawEarthquakeData).length) := by
  induction l with
  | nil => intro acc c; simp
  | cons hd t ih =>
    intro acc c
    by_cases hv : CsvParsing.validateRawEarthquakeData hd
    · rw [List.foldl_cons]
      have hstep : CsvParsing.stepFold s e (acc, c) hd
          = if s < c + 1 ∧ c + 1 ≤ e then (acc ++ [hd], c + 1) else (acc, c + 1) := by
        rw [CsvParsing.stepFold, if_pos hv]
      rw [hstep, List.filter_cons_of_pos hv]
      by_cases hc : s < c + 1 ∧ c + 1 ≤ e
      · rw [if_pos hc, ih (acc ++ [hd]) (c + 1)]
        have h1 : s - c = 0 := by omega
        have h2 : s - (c + 1) = 0 := by omega
        have h3 : e - c = (e - (c + 1)) + 1 := by omega
        rw [h1, h2, h3, List.take_succ_cons]
        simp only [List.drop_zero, List.length_cons, Prod.mk.injEq]
        exact ⟨by simp, by omega⟩
      · rw [if_neg hc, ih acc (c + 1)]
        by_cases he : e ≤ c
        · have h1 : e - c = 0 := by omega
          have h2 : e - (c + 1) = 0 := by omega
          rw [h1, h2]
          simp only [List.take_zero, List.drop_nil, List.length_cons, Prod.mk.injEq]
          exact ⟨trivial, by omega⟩
        · have h3 : e - c = (e - (c + 1)) + 1 := by omega
          have h4 : s - c = (s - (c + 1)) + 1 := by omega
          rw [h3, h4, List.take_succ_cons, List.drop_succ_cons]
          simp only [List.length_cons, Prod.mk.injEq]
          exact ⟨trivial, by omega⟩
    · rw [List.foldl_cons]
      have hstep : CsvParsing.stepFold s e (acc, c) hd = (acc, c) := by
        rw [CsvParsing.stepFold, if_neg (by simpa using hv)]
      rw [hstep, List.filter_cons_of_neg (by simpa using hv)]
      exact ih acc c

/-- C6: the claim is false for the streaming ingestion path the app uses.
A stream in which zero rows validate — here a single row with every field
empty — does not produce a fatal Failed outcome: `parseCsvStreamingFromUrl`'s
`complete` callback resolves successfully with an empty page, `totalRows = 0`
and `hasMore = false`, with no zero-valid-rows check. -/
theorem c6_counterexample :
    CsvParsing.validateRawEarthquakeData emptyRaw = false
    ∧ CsvParsing.parseCsvStreamingFromUrl [emptyRaw] false 5 1
        = CsvParsing.StreamOutcome.ok [] 0 false := by decide

/-- C6 (amended): streaming ingestion terminates with a fatal Failed outcome
iff the underlying download/parse layer signals an error (unreachable source /
timeout); individual row-level validation failures never cause Failed, and in
every other case — including an empty source and a stream with zero valid
rows — ingestion resolves successfully with exactly the valid rows of the
requested page, the count of valid rows, and the has-more flag. -/
theorem c6_amended (stream : List RawEarthquakeData) (pageSize page : ℕ)
    (hpage : 1 ≤ page) :
    CsvParsing.parseCsvStreamingFromUrl stream true pageSize page
        = CsvParsing.StreamOutcome.failed CsvParsing.PARSING_ERROR
    ∧ CsvParsing.parseCsvStreamingFromUrl stream false pageSize page
        = CsvParsing.StreamOutcome.ok
            (((stream.filter CsvParsing.validateRawEarthquakeData).drop
                ((page - 1) * pageSize)).take pageSize)
            (stream.filter CsvParsing.validateRawEarthquakeData).length
            (decide (page * pageSize
              < (stream.filter CsvParsing.validateRawEarthquakeData).length)) := by
  constructor
  · rw [CsvParsing.parseCsvStreamingFromUrl, if_pos rfl]
  · obtain ⟨q, rfl⟩ : ∃ q, page = q + 1 := ⟨page - 1, by omega⟩
    rw [CsvParsing.parseCsvStreamingFromUrl, if_neg (by simp)]
    simp only [foldl_stepFold, Nat.sub_zero, List.nil_append, Nat.zero_add,
      Nat.add_sub_cancel, List.drop_take]
    have hsub : (q + 1) * pageSize - q * pageSize = pageSize := by
      rw [Nat.succ_mul]; omega
    rw [hsub]

theorem c6_amended_witness :
    (1 ≤ 1)
    ∧ (CsvParsing.parseCsvStreamingFromUrl [emptyRaw] true 5 1
        = CsvParsing.StreamOutcome.failed CsvParsing.PARSING_ERROR
       ∧ CsvParsing.parseCsvStreamingFromUrl [emptyRaw] false 5 1
        = CsvParsing.StreamOutcome.ok
            ((([emptyRaw].filter CsvParsing.validateRawEarthquakeData).drop
                ((1 - 1) * 5)).take 5)
            ([emptyRaw].filter CsvParsing.validateRawEarthquakeData).length
            (decide (1 * 5
              < ([emptyRaw].filter CsvParsing.validateRawEarthquakeData).length))) :=
  ⟨le_refl 1, c6_amended [emptyRaw] 5 1 (le_refl 1)⟩

theorem c5_codec_witness :
    Transform.perRowCodec pfW piW rawW = some recW
    ∧ (recW.depth = (pfW rawW.depth).getD 0
       ∧ (recW.gap = none ↔ (Transform.jsTrim rawW.gap = "" ∨ pfW rawW.gap = none))
       ∧ (recW.dmin = none ↔ (Transform.jsTrim rawW.dmin = "" ∨ pfW rawW.dmin = none))
       ∧ (recW.rms = none ↔ (Transform.jsTrim rawW.rms = "" ∨ pfW rawW.rms = none))
       ∧ (recW.horizontalError = none ↔
           (Transform.jsTrim rawW.horizontalError = "" ∨ pfW rawW.horizontalError = none))
       ∧ (recW.depthError = none ↔
           (Transform.jsTrim rawW.depthError = "" ∨ pfW rawW.depthError = none))
       ∧ (recW.magError = none ↔
           (Transform.jsTrim rawW.magError = "" ∨ pfW rawW.magError = none))
       ∧ (recW.nst = none ↔ (Transform.jsTrim rawW.nst = "" ∨ piW rawW.nst = none))
       ∧ (recW.magNst = none ↔
           (Transform.jsTrim rawW.magNst = "" ∨ piW rawW.magNst = none))) := by
  have hv : Transform.perRowCodec pfW piW rawW = some recW := by decide
  exact ⟨hv, (c5_codec pfW piW rawW).2 recW hv⟩

theorem groupFor_cons_hit (kh : String) (rs : List EarthquakeData)
    (t : List (String × List EarthquakeData)) (k : String) (h : kh = k) :
    Dedup.groupFor ((kh, rs) :: t) k = rs := by
  rw [Dedup.groupFor, List.find?_cons_of_pos _ (by simp [h])]
  rfl

theorem groupFor_cons_skip (kh : String) (rs : List EarthquakeData)
    (t : List (String × List EarthquakeData)) (k : String) (h : ¬kh = k) :
    Dedup.groupFor ((kh, rs) :: t) k = Dedup.groupFor t k := by
  rw [Dedup.groupFor, List.find?_cons_of_neg _ (by simp [h])]
  rfl

theorem groupFor_insertById (gs : List (String × List EarthquakeData))
    (item : EarthquakeData) (k : String) :
    Dedup.groupFor (Dedup.insertById gs item) k
      = if item.id = k then Dedup.groupFor gs k ++ [item] else Dedup.groupFor gs k := by
  induction gs with
  | nil =>
    rw [Dedup.insertById]
    by_cases h : item.id = k
    · rw [if_pos h, groupFor_cons_hit _ _ _ _ h]
      rw [show Dedup.groupFor [] k = [] from rfl]
      rfl
    · rw [if_neg h, groupFor_cons_skip _ _ _ _ h]
  | cons hd t ih =>
    obtain ⟨kh, rs⟩ := hd
    rw [Dedup.insertById]
    by_cases h1 : kh = item.id
    · rw [if_pos h1]
      by_cases h2 : kh = k
      · subst h2
        rw [if_pos h1.symm, groupFor_cons_hit _ _ _ _ rfl, groupFor_cons_hit _ _ _ _ rfl]
      · rw [if_neg (fun hh => h2 (h1.trans hh)), groupFor_cons_skip _ _ _ _ h2,
          groupFor_cons_skip _ _ _ _ h2]
    · rw [if_neg h1]
      by_cases h2 : kh = k
      · subst h2
        rw [if_neg (fun hh => h1 hh.symm), groupFor_cons_hit _ _ _ _ rfl,
          groupFor_cons_hit _ _ _ _ rfl]
      · rw [groupFor_cons_skip _ _ _ _ h2, groupFor_cons_skip _ _ _ _ h2]
        exact ih

theorem groupFor_groupById (data : List EarthquakeData) (k : String) :
    Dedup.groupFor (Dedup.groupById data) k = data.filter (fun r => r.id == k) := by
  induction data using List.reverseRecOn with
  | nil => simp [Dedup.groupById, Dedup.groupFor]
  | append_singleton l x ih =>
    rw [Dedup.groupById, List.foldl_append, List.foldl_cons, List.foldl_nil]
    rw [show List.foldl Dedup.insertById [] l = Dedup.groupById l from rfl]
    rw [groupFor_insertById, List.filter_append]
    by_cases h : x.id = k
    · rw [if_pos h, ih]
      simp [h]
    · rw [if_neg h, ih]
      simp [h]

theorem keys_insertById (gs : List (String × List EarthquakeData)) (item : EarthquakeData) :
    (Dedup.insertById gs item).map Prod.fst
      = if item.id ∈ gs.map Prod.fst then gs.map Prod.fst
        else gs.map Prod.fst ++ [item.id] := by
  induction gs with
  | nil => simp [Dedup.insertById]
  | cons hd t ih =>
    obtain ⟨kh, rs⟩ := hd
    rw [Dedup.insertById]
    by_cases h1 : kh = item.id
    · rw [if_pos h1]
      simp [h1]
    · rw [if_neg h1]
      have h1' : ¬item.id = kh := fun hh => h1 hh.symm
      simp only [List.map_cons, ih]
      by_cases h2 : item.id ∈ t.map Prod.fst
      · simp [h2]
      · simp [h2, h1']

theorem keys_groupById_nodup (data : List EarthquakeData) :
    ((Dedup.groupById data).map Prod.fst).Nodup := by
  induction data using List.reverseRecOn with
  | nil => simp [Dedup.groupById]
  | append_singleton l x ih =>
    rw [Dedup.groupById, List.foldl_append, List.foldl_cons, List.foldl_nil]
    rw [show List.foldl Dedup.insertById [] l = Dedup.groupById l from rfl]
    rw [keys_insertById]
    by_cases h : x.id ∈ (Dedup.groupById l).map Prod.fst
    · rw [if_pos h]
      exact ih
    · rw [if_neg h]
      simp [List.nodup_append, ih, h]

theorem groupFor_of_mem (gs : List (String × List EarthquakeData))
    (hnd : (gs.map Prod.fst).Nodup) :
    ∀ p ∈ gs, Dedup.groupFor gs p.1 = p.2 := by
  induction gs with
  | nil => simp
  | cons hd t ih =>
    intro p hp
    rcases List.mem_cons.1 hp with rfl | hp'
    · obtain ⟨kh, rs⟩ := p
      exact groupFor_cons_hit _ _ _ _ rfl
    · have h1 : ¬hd.1 = p.1 := by
        have hmem : p.1 ∈ t.map Prod.fst := List.mem_map_of_mem _ hp'
        have h2 := (List.nodup_cons.1 hnd).1
        intro hh
        rw [hh] at h2
        exact h2 hmem
      obtain ⟨kh, rs⟩ := hd
      rw [groupFor_cons_skip _ _ _ _ h1]
      exact ih (List.nodup_cons.1 hnd).2 p hp'

theorem pickGroup_cons (dv : String → ℤ) (h : EarthquakeData) (t : List EarthquakeData) :
    Dedup.pickGroup dv (h :: t) = [Dedup.latestRecord dv h t] := by
  show (if 1 < (h :: t).length then [Dedup.latestRecord dv h t] else [h])
      = [Dedup.latestRecord dv h t]
  cases t with
  | nil =>
    rw [if_neg (by simp)]
    rfl
  | cons c u =>
    rw [if_pos (by simp only [List.length_cons]; omega)]

theorem latestRecord_mem (dv : String → ℤ) (t : List EarthquakeData) :
    ∀ h, Dedup.latestRecord dv h t ∈ h :: t := by
  induction t with
  | nil =>
    intro h
    simp [Dedup.latestRecord]
  | cons c u ih =>
    intro h
    have hrw : Dedup.latestRecord dv h (c :: u)
        = Dedup.latestRecord dv (if dv h.updated < dv c.updated then c else h) u := by
      rw [Dedup.latestRecord, Dedup.latestRecord, List.foldl_cons]
    rw [hrw]
    rcases List.mem_cons.1 (ih (if dv h.updated < dv c.updated then c else h)) with heq | hmem
    · rw [heq]
      split_ifs
      · exact List.mem_cons_of_mem _ (List.mem_cons_self _ _)
      · exact List.mem_cons_self _ _
    · exact List.mem_cons_of_mem _ (List.mem_cons_of_mem _ hmem)

theorem latestRecord_le (dv : String → ℤ) (t : List EarthquakeData) :
    ∀ h, ∀ x ∈ h :: t, dv x.updated ≤ dv (Dedup.latestRecord dv h t).updated := by
  induction t with
  | nil =>
    intro h x hx
    rcases List.mem_cons.1 hx with rfl | h0
    · simp [Dedup.latestRecord]
    · simp at h0
  | cons c u ih =>
    intro h x hx
    have hrw : Dedup.latestRecord dv h (c :: u)
        = Dedup.latestRecord dv (if dv h.updated < dv c.updated then c else h) u := by
      rw [Dedup.latestRecord, Dedup.latestRecord, List.foldl_cons]
    rw [hrw]
    set m := if dv h.updated < dv c.updated then c else h with hm
    have hhm : dv h.updated ≤ dv m.updated := by
      rw [hm]
      split_ifs with hs
      · exact le_of_lt hs
      · exact le_refl _
    have hcm : dv c.updated ≤ dv m.updated := by
      rw [hm]
      split_ifs with hs
      · exact le_refl _
      · exact le_of_not_lt hs
    have hmm : dv m.updated ≤ dv (Dedup.latestRecord dv m u).updated :=
      ih m m (List.mem_cons_self _ _)
    rcases List.mem_cons.1 hx with rfl | hx'
    · exact le_trans hhm hmm
    rcases List.mem_cons.1 hx' with rfl | hx''
    · exact le_trans hcm hmm
    · exact ih m x (List.mem_cons_of_mem _ hx'')

theorem pickGroup_subset (dv : String → ℤ) (g : List EarthquakeData) :
    ∀ r ∈ Dedup.pickGroup dv g, r ∈ g := by
  cases g with
  | nil => simp [Dedup.pickGroup]
  | cons h t =>
    rw [pickGroup_cons]
    intro r hr
    rcases List.mem_cons.1 hr with rfl | h0
    · exact latestRecord_mem dv t h
    · simp at h0

theorem filter_flatMap_pickGroup (dv : String → ℤ)
    (gs : List (String × List EarthquakeData))
    (hgood : ∀ p ∈ gs, ∀ r ∈ p.2, r.id = p.1)
    (hnd : (gs.map Prod.fst).Nodup) (k : String) :
    (gs.flatMap (fun g => Dedup.pickGroup dv g.2)).filter (fun x => x.id == k)
      = Dedup.pickGroup dv (Dedup.groupFor gs k) := by
  induction gs with
  | nil => simp [Dedup.groupFor, Dedup.pickGroup]
  | cons hd t ih =>
    rw [List.flatMap_cons, List.filter_append]
    by_cases h : hd.1 = k
    · have hHead : (Dedup.pickGroup dv hd.2).filter (fun x => x.id == k)
          = Dedup.pickGroup dv hd.2 := by
        rw [List.filter_eq_self]
        intro r hr
        have hrid : r.id = hd.1 :=
          hgood hd (List.mem_cons_self _ _) r (pickGroup_subset dv hd.2 r hr)
        simp [hrid, h]
      have hTail : (t.flatMap (fun g => Dedup.pickGroup dv g.2)).filter
          (fun x => x.id == k) = [] := by
        rw [List.filter_eq_nil_iff]
        intro r hr
        obtain ⟨g, hg, hrg⟩ := List.mem_flatMap.1 hr
        have hrid : r.id = g.1 :=
          hgood g (List.mem_cons_of_mem _ hg) r (pickGroup_subset dv g.2 r hrg)
        have hgk : ¬g.1 = k := by
          intro hh
          have hk : hd.1 ∉ t.map Prod.fst := (List.nodup_cons.1 hnd).1
          apply hk
          have hmm : g.1 ∈ t.map Prod.fst := List.mem_map_of_mem _ hg
          rw [hh, ← h] at hmm
          exact hmm
        simp [hrid, hgk]
      rw [hHead, hTail, List.append_nil]
      obtain ⟨kh, rs⟩ := hd
      rw [groupFor_cons_hit _ _ _ _ h]
    · have hHead : (Dedup.pickGroup dv hd.2).filter (fun x => x.id == k) = [] := by
        rw [List.filter_eq_nil_iff]
        intro r hr
        have hrid : r.id = hd.1 :=
          hgood hd (List.mem_cons_self _ _) r (pickGroup_subset dv hd.2 r hr)
        simp [hrid, h]
      rw [hHead, List.nil_append]
      obtain ⟨kh, rs⟩ := hd
      rw [groupFor_cons_skip _ _ _ _ h]
      exact ih (fun p hp => hgood p (List.mem_cons_of_mem _ hp)) (List.nodup_cons.1 hnd).2

/-- C7: for every collection in which records sharing an id have pairwise
distinct `updated` timestamps, `findDuplicateRecords` retains exactly one
record per id — the one whose `updated` timestamp is latest (it strictly
dominates every other record of that id) — and every record with a unique id
is retained unchanged. -/
theorem c7_dedup (dv : String → ℤ) (data : List EarthquakeData)
    (hdiff : ∀ r ∈ data, ∀ s ∈ data, r.id = s.id → r ≠ s →
      dv r.updated ≠ dv s.updated) :
    (∀ id₀ r₀, r₀ ∈ data → r₀.id = id₀ →
      ∃ r, (Dedup.uniqueData dv data).filter (fun x => x.id == id₀) = [r]
        ∧ r ∈ data ∧ r.id = id₀
        ∧ (∀ s ∈ data, s.id = id₀ → dv s.updated ≤ dv r.updated)
        ∧ (∀ s ∈ data, s.id = id₀ → s ≠ r → dv s.updated < dv r.updated))
    ∧ (∀ r ∈ data, (∀ s ∈ data, s.id = r.id → s = r) →
        r ∈ Dedup.uniqueData dv data) := by
  have hgood : ∀ p ∈ Dedup.groupById data, ∀ r ∈ p.2, r.id = p.1 := by
    intro p hp r hr
    have h1 : Dedup.groupFor (Dedup.groupById data) p.1 = p.2 :=
      groupFor_of_mem _ (keys_groupById_nodup data) p hp
    rw [groupFor_groupById] at h1
    rw [← h1] at hr
    have h2 := (List.mem_filter.1 hr).2
    simpa using h2
  have key : ∀ k, (Dedup.uniqueData dv data).filter (fun x => x.id == k)
      = Dedup.pickGroup dv (data.filter (fun r => r.id == k)) := by
    intro k
    rw [Dedup.uniqueData,
      filter_flatMap_pickGroup dv _ hgood (keys_groupById_nodup data) k,
      groupFor_groupById]
  have partA : ∀ id₀ r₀, r₀ ∈ data → r₀.id = id₀ →
      ∃ r, (Dedup.uniqueData dv data).filter (fun x => x.id == id₀) = [r]
        ∧ r ∈ data ∧ r.id = id₀
        ∧ (∀ s ∈ data, s.id = id₀ → dv s.updated ≤ dv r.updated)
        ∧ (∀ s ∈ data, s.id = id₀ → s ≠ r → dv s.updated < dv r.updated) := by
    intro id₀ r₀ hr₀ hid₀
    obtain ⟨h, t, hft⟩ : ∃ h t, data.filter (fun r => r.id == id₀) = h :: t := by
      cases hF : data.filter (fun r => r.id == id₀) with
      | nil =>
        exfalso
        have hmem : r₀ ∈ data.filter (fun r => r.id == id₀) :=
          List.mem_filter.2 ⟨hr₀, by simp [hid₀]⟩
        rw [hF] at hmem
        simp at hmem
      | cons a b => exact ⟨a, b, rfl⟩
    have hmemf : Dedup.latestRecord dv h t ∈ data.filter (fun r => r.id == id₀) := by
      rw [hft]
      exact latestRecord_mem dv t h
    have hmemd : Dedup.latestRecord dv h t ∈ data := List.mem_of_mem_filter hmemf
    have hidr : (Dedup.latestRecord dv h t).id = id₀ := by
      have h2 := (List.mem_filter.1 hmemf).2
      simpa using h2
    refine ⟨Dedup.latestRecord dv h t, ?_, hmemd, hidr, ?_, ?_⟩
    · rw [key id₀, hft, pickGroup_cons]
    · intro s hs hsid
      have hsf : s ∈ h :: t := by
        rw [← hft]
        exact List.mem_filter.2 ⟨hs, by simp [hsid]⟩
      exact latestRecord_le dv t h s hsf
    · intro s hs hsid hne
      have hsf : s ∈ h :: t := by
        rw [← hft]
        exact List.mem_filter.2 ⟨hs, by simp [hsid]⟩
      have hle := latestRecord_le dv t h s hsf
      have hneq : dv s.updated ≠ dv (Dedup.latestRecord dv h t).updated :=
        hdiff s hs _ hmemd (hsid.trans hidr.symm) hne
      exact lt_of_le_of_ne hle hneq
  refine ⟨partA, ?_⟩
  intro r hr huniq
  obtain ⟨r', hfil, hr'mem, hr'id, _, _⟩ := partA r.id r hr rfl
  have hrr : r' = r := huniq r' hr'mem hr'id
  subst hrr
  have hmem : r' ∈ (Dedup.uniqueData dv data).filter (fun x => x.id == r'.id) := by
    rw [hfil]
    exact List.mem_cons_self _ _
  exact List.mem_of_mem_filter hmem

theorem c7_dedup_witness :
    (Dedup.uniqueData dvW recsW).filter (fun x => x.id == "x") = [recBW]
    ∧ recBW ∈ recsW ∧ recBW.id = "x"
    ∧ dvW recAW.updated < dvW recBW.updated := by
  have hdiff : ∀ r ∈ recsW, ∀ s ∈ recsW, r.id = s.id → r ≠ s →
      dvW r.updated ≠ dvW s.updated := by decide
  obtain ⟨r, hfil, hmem, hid, hle, hlt⟩ :=
    (c7_dedup dvW recsW hdiff).1 "x" recAW (by decide) rfl
  have hcomp : (Dedup.uniqueData dvW recsW).filter (fun x => x.id == "x")
      = [recBW] := by decide
  have hreq : r = recBW := by
    rw [hcomp] at hfil
    injection hfil with h1 h2
    exact h1.symm
  subst hreq
  exact ⟨hcomp, hmem, hid, hlt recAW (by decide) rfl (by decide)⟩

end EarthquakeWebapp
